import Mathlib

set_option maxHeartbeats 1000000

namespace Dnf

/-! Shallow embedding of `dnf/repo.py`: the repository metadata
synchronization state machine and the batch package-download error ledger.
Python dicts are modelled as association lists, sets as duplicate-free
lists, strings as `String`; Python truthiness of optional strings is made
explicit. Machine effects (local cache load, revive descriptor fetch,
remote fetch) are inputs supplied by an environment record, and the
network-facing steps a `load()` call performs are recorded in an action
trace. -/

/-- Python truthiness of an optional string: `None` and the empty string
are falsy. -/
def optTruthy : Option String → Bool
  | none => false
  | some s => decide (s ≠ "")

/-- Python `a or b` for an optional string `a` and a default `b`, as in
`e.args[1] or ...` on repo.py line 127. -/
def pyOrStr (a : Option String) (d : String) : String :=
  match a with
  | none => d
  | some s => if s = "" then d else s

/-- Python `d[k] = v` on a dict modelled as an association list: replace
the value at an existing key, else append the new binding. -/
def assocSet (d : List (String × List String)) (k : String) (v : List String) :
    List (String × List String) :=
  if d.any fun kv => kv.1 = k then
    d.map fun kv => if kv.1 = k then (k, v) else kv
  else d ++ [(k, v)]

/-- Python `s.add x` on a set modelled as a duplicate-free list. -/
def setAdd (s : List String) (x : String) : List String :=
  if s.contains x then s else s ++ [x]

/-- Python `s.startswith(pre)` over explicit character lists. -/
def charsLeadWith : List Char → List Char → Bool
  | [], _ => true
  | _ :: _, [] => false
  | c :: cs, d :: ds => c = d && charsLeadWith cs ds

/-- Python `s.startswith(pre)`. -/
def strLeadsWith (s pre : String) : Bool := charsLeadWith pre.data s.data

/-- The `_DownloadErrors` ledger (repo.py lines 90-116): stored
irrecoverable and recoverable dicts, the optional fatal message and the
set of skipped package identities. -/
structure DownloadErrors where
  _irrecoverable : List (String × List String)
  _recoverable : List (String × List String)
  fatal : Option String
  skipped : List String
deriving DecidableEq

/-- The `irrecoverable` property getter (repo.py lines 97-103): the stored
dict when it is non-empty, else a fresh single-entry dict carrying a truthy
fatal message, else a fresh empty dict. -/
def DownloadErrors.irrecoverable (e : DownloadErrors) : List (String × List String) :=
  if e._irrecoverable ≠ [] then e._irrecoverable
  else
    match e.fatal with
    | some s => if s = "" then [] else [("", [s])]
    | none => []

/-- The item assignment `errs.irrecoverable[pkg] = [err]` of repo.py
line 141: it item-assigns into the object returned by the `irrecoverable`
property getter, so it mutates the stored dict only when the getter
returned the stored dict (i.e. when that dict was already non-empty);
otherwise the getter returned a fresh temporary dict and the assignment
has no effect on the ledger. -/
def DownloadErrors.irrecoverableSetItem (e : DownloadErrors) (k : String)
    (v : List String) : DownloadErrors :=
  if e._irrecoverable ≠ [] then { e with _irrecoverable := assocSet e._irrecoverable k v }
  else e

/-- A package payload: the package identity and its download size
(`RPMPayload.download_size` is `pkg.downloadsize`, repo.py lines 364-367). -/
structure PackagePayload where
  pkg : String
  download_size : Nat
deriving DecidableEq

/-- `PackagePayload.full_size` (repo.py lines 321-323): equal to the
download size. -/
def PackagePayload.full_size (p : PackagePayload) : Nat := p.download_size

/-- A librepo package target after the batch transfer finished: its
`cbdata` payload and the final per-target error string (`None` means the
transfer succeeded). -/
structure DownloadTarget where
  cbdata : PackagePayload
  err : Option String
deriving DecidableEq

/-- `download_payloads` (repo.py lines 119-143). `raised = some a` models
`librepo.download_packages` raising `LibrepoException` with
`e.args[1] = a` (the exception is caught and turned into `fatal`);
`drpmErr` models `drpm.err.copy()`. The per-target loop is a fold over the
targets in order: unfinished or error-free targets are skipped, an
"Already downloaded" target is added to `skipped`, and any other error is
item-assigned through the `irrecoverable` property. -/
def download_payloads (raised : Option (Option String))
    (drpmErr : List (String × List String)) (targets : List DownloadTarget) :
    DownloadErrors :=
  let errs : DownloadErrors := ⟨[], [], none, []⟩
  let errs :=
    match raised with
    | none => errs
    | some a => { errs with fatal := some (pyOrStr a "<unspecified librepo error>") }
  let errs := { errs with _recoverable := drpmErr }
  targets.foldl
    (fun acc tgt =>
      match tgt.err with
      | none => acc
      | some err =>
        if strLeadsWith err "Not finished" then acc
        else if err = "Already downloaded" then
          { acc with skipped := setAdd acc.skipped tgt.cbdata.pkg }
        else acc.irrecoverableSetItem tgt.cbdata.pkg [err])
    errs

/-- `update_saving` (repo.py lines 145-154): `errs` is the collection of
package identities with irrecoverable errors (`pkg in errs`). -/
def update_saving (saving : Nat × Nat) (payloads : List PackagePayload)
    (errs : List String) : Nat × Nat :=
  payloads.foldl
    (fun acc pload =>
      if errs.contains pload.pkg then (acc.1 + pload.download_size, acc.2)
      else (acc.1 + pload.download_size, acc.2 + pload.full_size))
    saving

/-- The allowed repo-id characters (repo.py line 56): ASCII letters,
digits and the characters of `-_.:`. -/
def allowedIdChar (c : Char) : Bool :=
  decide (('a' ≤ c ∧ c ≤ 'z') ∨ ('A' ≤ c ∧ c ≤ 'Z') ∨ ('0' ≤ c ∧ c ≤ '9')) ||
  c = '-' || c = '_' || c = '.' || c = ':'

/-- Index of the first disallowed character, counting from `i`: the
`enumerate` generator filtered to invalid positions, consumed by
`dnf.util.first` (repo.py lines 57-59). -/
def firstInvalidFrom (i : Nat) : List Char → Option Nat
  | [] => none
  | c :: cs => if allowedIdChar c then firstInvalidFrom (i + 1) cs else some i

/-- `repo_id_invalid` (repo.py lines 54-59): the index of the first
character of the repo id outside the allowed set, or `none` when the id is
valid. -/
def repo_id_invalid (repoId : String) : Option Nat :=
  firstInvalidFrom 0 repoId.data

/-- Modelled from the spec: the URL-escaping helper
`dnf.pycomp.urllib_quote` (the `dnf.pycomp` module is not under `src/`).
ASCII letters, digits and the characters of `_.-~/` pass through unchanged;
every other character is percent-encoded from its code-point byte value. -/
def quoteSafeChar (c : Char) : Bool :=
  decide (('A' ≤ c ∧ c ≤ 'Z') ∨ ('a' ≤ c ∧ c ≤ 'z') ∨ ('0' ≤ c ∧ c ≤ '9')) ||
  c = '_' || c = '.' || c = '-' || c = '~' || c = '/'

/-- Upper-case hexadecimal digit of a value below 16. -/
def hexDigitChar (n : Nat) : Char :=
  if n < 10 then Char.ofNat (48 + n) else Char.ofNat (55 + n)

/-- Percent-encoding of one byte value. -/
def percentEncode (n : Nat) : List Char :=
  ['%', hexDigitChar (n / 16 % 16), hexDigitChar (n % 16)]

/-- Modelled from the spec: `dnf.pycomp.urllib_quote` applied to a string. -/
def urllib_quote (s : String) : String :=
  String.mk ((s.data.map fun c =>
    if quoteSafeChar c then [c] else percentEncode (c.toNat % 256)).flatten)

/-- `_user_pass_str` (repo.py lines 62-67): `None` for a missing user,
otherwise the URL-escaped `user:password` string, with an empty password
rendered after the colon when the password is `None`. -/
def _user_pass_str (user password : Option String) : Option String :=
  match user with
  | none => none
  | some u =>
    some (urllib_quote u ++ ":" ++
      (match password with
       | none => ""
       | some pw => urllib_quote pw))

/-- The two credential fields that `_handle_new_remote` sets on the
transfer handle. -/
structure HandleCreds where
  userpwd : Option String
  proxyuserpwd : Option String
deriving DecidableEq

/-- The credential configuration performed by `_handle_new_remote`
(repo.py lines 606-611 and 626): `userpwd` is built from the repository
username/password without escaping — the raw username, with `:password`
appended only when the password is truthy, and nothing set when the
username is falsy — while `proxyuserpwd` goes through `_user_pass_str`. -/
def _handle_new_remote_creds (username password proxy_username proxy_password :
    Option String) : HandleCreds :=
  { userpwd :=
      if optTruthy username then
        let u := username.getD ""
        some (if optTruthy password then u ++ ":" ++ password.getD "" else u)
      else none
    proxyuserpwd := _user_pass_str proxy_username proxy_password }

/-- The synchronization strategies (repo.py lines 425-430). -/
inductive SyncStrategy where
  | lazy
  | onlyCache
  | tryCache
deriving DecidableEq

/-- A metadata snapshot (`Metadata`, repo.py lines 215-289), abstracted to
the fields the synchronization decisions read: the age of the primary
metadata file and the `fresh` flag. -/
structure Metadata where
  age : Int
  fresh : Bool
deriving DecidableEq

/-- `Metadata.reset_age` (repo.py lines 272-273): touching the primary
file makes the age zero. -/
def Metadata.reset_age (md : Metadata) : Metadata := { md with age := 0 }

/-- The metalink descriptor fetched during revive: its list of
(algorithm, digest) hash pairs (`handle.metalink['hashes']`). -/
structure MetalinkData where
  hashes : List (String × String)
deriving DecidableEq

/-- The externally visible steps a `load()` call can perform: probing the
local cache with a local handle, the revive descriptor fetch, and the full
remote fetch. -/
inductive Action where
  | localLoad
  | reviveFetch
  | remoteFetch
deriving DecidableEq

/-- The `dnf.exceptions.RepoError` values raised by `load()` (repo.py
lines 771-773 and 793-796). -/
inductive RepoError where
  | cacheOnly (id : String)
  | syncFailed (id : String) (msg : String)
deriving DecidableEq

/-- The external world as observed during one `load()` call: the result of
loading metadata from the local cache (`none` means the load raised), the
result of the revive descriptor fetch (`handle.perform()` followed by
reading `handle.metalink`), the digest recomputed over the cached repomd
file for each hash algorithm, and the result of the full remote fetch
followed by the local reload. -/
structure Env where
  cacheLoad : Option Metadata
  reviveFetch : Except String (Option MetalinkData)
  digest : String → String
  remoteFetch : Except String Metadata

/-- The mutable repository attributes driving the sync state machine:
`_expired`, the optional in-memory snapshot, the strategy, the
`metadata_expire` setting and the configured metalink URL. -/
structure RepoState where
  id : String
  metadata : Option Metadata
  expired : Bool
  sync_strategy : SyncStrategy
  metadata_expire : Int
  metalink : Option String
deriving DecidableEq

/-- `_reset_metadata_expired` (repo.py lines 648-654): keep an explicitly
requested expired state; otherwise compare the snapshot age against
`metadata_expire`, forcing not-expired when `metadata_expire` is `-1`.
(The source is only called with a snapshot present; without one it would
fail, so the model leaves the state unchanged in that unreachable case.) -/
def _reset_metadata_expired (st : RepoState) : RepoState :=
  if st.expired then st
  else
    match st.metadata with
    | none => st
    | some md =>
      if st.metadata_expire = -1 then { st with expired := false }
      else { st with expired := decide (md.age ≥ st.metadata_expire) }

/-- `_try_cache` (repo.py lines 662-677): load metadata from the local
cache with a local handle; on failure report no cache, on success store
the snapshot and recompute `_expired`. -/
def _try_cache (st : RepoState) (env : Env) : Bool × RepoState :=
  match env.cacheLoad with
  | none => (false, st)
  | some md => (true, _reset_metadata_expired { st with metadata := some md })

/-- `_RECOGNIZED_CHKSUMS` (repo.py line 49). -/
def _RECOGNIZED_CHKSUMS : List String := ["sha512", "sha256"]

/-- `_try_revive` (repo.py lines 679-712): revive needs an in-memory
snapshot and a configured metalink; the descriptor fetch must yield a
metalink with at least one hash of a recognized algorithm, and every
recognized hash must equal the digest recomputed over the cached repomd
file. The second component is the trace of network steps performed. -/
def _try_revive (st : RepoState) (env : Env) :
    Except String Bool × List Action :=
  match st.metadata with
  | none => (Except.ok false, [])
  | some _ =>
    if optTruthy st.metalink = false then (Except.ok false, [])
    else
      match env.reviveFetch with
      | Except.error e => (Except.error e, [Action.reviveFetch])
      | Except.ok none => (Except.ok false, [Action.reviveFetch])
      | Except.ok (some ml) =>
        let hashes := ml.hashes.filter fun hv => decide (hv.1 ∈ _RECOGNIZED_CHKSUMS)
        if hashes.length < 1 then (Except.ok false, [Action.reviveFetch])
        else
          (Except.ok (hashes.all fun hv => decide (env.digest hv.1 = hv.2)),
           [Action.reviveFetch])

/-- The tail of `load()` after the `self.metadata or self._try_cache()`
step (repo.py lines 766-798): accept the cache when present and usable,
fail in cache-only mode without a cache, then revive or refetch. -/
def loadTail (st1 : RepoState) (hasCache : Bool) (acts1 : List Action)
    (env : Env) : Except RepoError (Bool × RepoState) × List Action :=
  if hasCache = true ∧ (st1.sync_strategy = SyncStrategy.onlyCache ∨
      st1.sync_strategy = SyncStrategy.lazy ∨ st1.expired = false) then
    (Except.ok (false, st1), acts1)
  else if st1.sync_strategy = SyncStrategy.onlyCache then
    (Except.error (RepoError.cacheOnly st1.id), acts1)
  else
    match _try_revive st1 env with
    | (Except.error e, acts2) =>
      (Except.error (RepoError.syncFailed st1.id e), acts1 ++ acts2)
    | (Except.ok true, acts2) =>
      (Except.ok (true, { st1 with
          metadata := st1.metadata.map Metadata.reset_age
          expired := false }),
       acts1 ++ acts2)
    | (Except.ok false, acts2) =>
      match env.remoteFetch with
      | Except.error e =>
        (Except.error (RepoError.syncFailed st1.id e),
         acts1 ++ acts2 ++ [Action.remoteFetch])
      | Except.ok md =>
        (Except.ok (true, { st1 with
            metadata := some { md with fresh := true }
            expired := false }),
         acts1 ++ acts2 ++ [Action.remoteFetch])

/-- `load` (repo.py lines 753-798): `self.metadata or self._try_cache()`
short-circuits, so an in-memory snapshot skips the local cache probe. -/
def load (st : RepoState) (env : Env) :
    Except RepoError (Bool × RepoState) × List Action :=
  match st.metadata with
  | some _ => loadTail st true [] env
  | none =>
    match _try_cache st env with
    | (gotCache, st') => loadTail st' gotCache [Action.localLoad] env

/-- `md_expire_cache` (repo.py lines 800-807). -/
def md_expire_cache (st : RepoState) : RepoState := { st with expired := true }

/-- `metadata_expire_in` (repo.py lines 813-830): `(true, none)` models
Python `(True, None)` (never expires) and `(false, some 0)` models
`(False, 0)` (no cached metadata). -/
def metadata_expire_in (st : RepoState) (env : Env) :
    (Bool × Option Int) × RepoState :=
  let st1 :=
    match st.metadata with
    | some _ => st
    | none => (_try_cache st env).2
  match st1.metadata with
  | some md =>
    if st1.metadata_expire = -1 then ((true, none), st1)
    else
      ((true, some (if st1.expired then min 0 (st1.metadata_expire - md.age)
                    else st1.metadata_expire - md.age)), st1)
  | none => ((false, some 0), st1)

/-- The contents of the temporary download directory used by the refetch
path: the fetched repodata file set and the optional metalink and
mirrorlist sidecar files. -/
structure TmpContents where
  repodata : Option (List (String × String))
  metalink : Option String
  mirrorlist : Option String
deriving DecidableEq

/-- The on-disk state relevant to one repository: the canonical cache
entries (`cachedir/repodata`, `cachedir/metalink.xml`,
`cachedir/mirrorlist`) and the temporary download directory. -/
structure CacheFS where
  repodata : Option (List (String × String))
  metalink : Option String
  mirrorlist : Option String
  tmp : TmpContents
deriving DecidableEq

/-- The remote fetch step of the refetch path (repo.py lines 781-785):
`_handle_new_remote(tmpdir)` sets the handle destination to the temporary
directory, so `_handle_load(handle)` writes only there. -/
def fetch_to_tmpdir (downloaded : TmpContents) (fs : CacheFS) : CacheFS :=
  { fs with tmp := downloaded }

/-- `_replace_metadata` (repo.py lines 637-646): remove the cached
repodata directory and both sidecar files, then move the temporary results
into place — the metalink when the handle resolved one, else the
mirrorlist when one was fetched. -/
def _replace_metadata (fs : CacheFS) : CacheFS :=
  { repodata := fs.tmp.repodata
    metalink := fs.tmp.metalink
    mirrorlist := if fs.tmp.metalink.isSome then none else fs.tmp.mirrorlist
    tmp := ⟨none, none, none⟩ }

/-- Frame update: set the age of the in-memory snapshot, modelling the
passage of wall-clock time between two `load()` calls. -/
def setAge (st : RepoState) (a : Int) : RepoState :=
  { st with metadata := st.metadata.map fun md => { md with age := a } }

/-- The revive success conditions exactly as the specification words them:
a snapshot, a configured metalink, a fetched descriptor containing a
metalink with at least one hash of a recognized algorithm, and every
recognized-algorithm hash equal to the digest recomputed over the cached
repomd file. Stated independently of `_try_revive` for comparison. -/
def reviveSpecConditions (st : RepoState) (env : Env) : Prop :=
  st.metadata.isSome = true ∧ optTruthy st.metalink = true ∧
  ∃ ml, env.reviveFetch = Except.ok (some ml) ∧
    (∃ hv ∈ ml.hashes, hv.1 ∈ _RECOGNIZED_CHKSUMS) ∧
    ∀ hv ∈ ml.hashes, hv.1 ∈ _RECOGNIZED_CHKSUMS → env.digest hv.1 = hv.2

/-- Sample environment with nothing reachable: no local cache, an empty
descriptor, no remote. -/
def envEmpty : Env :=
  ⟨none, Except.ok none, fun _ => "", Except.error "network unreachable"⟩

/-- Sample environment where only the full remote fetch succeeds. -/
def envFetchOk : Env :=
  ⟨none, Except.ok none, fun _ => "", Except.ok ⟨0, false⟩⟩

/-- Sample state: cache-only repository with no snapshot. -/
def stCacheOnly : RepoState :=
  ⟨"fedora", none, false, SyncStrategy.onlyCache, 3600, none⟩

/-- Sample state: never-expiring repository with no snapshot yet. -/
def stFresh0 : RepoState :=
  ⟨"rawhide", none, false, SyncStrategy.tryCache, -1, none⟩

/-- Sample state: expired repository with a snapshot and a metalink. -/
def stRevive : RepoState :=
  ⟨"updates", some ⟨10000, false⟩, true, SyncStrategy.tryCache, 3600,
   some "https://mirrors.example/metalink"⟩

/-- Sample environment: the revive fetch returns a recognized-algorithm
hash whose digest does not match the cached repomd file. -/
def envBadDigest : Env :=
  ⟨none, Except.ok (some ⟨[("sha256", "cafe")]⟩), fun _ => "beef",
   Except.ok ⟨0, false⟩⟩


/-! Helper lemmas. -/

lemma update_saving_cons (s : Nat × Nat) (p : PackagePayload)
    (ps : List PackagePayload) (errs : List String) :
    update_saving s (p :: ps) errs =
      update_saving
        (if errs.contains p.pkg then (s.1 + p.download_size, s.2)
         else (s.1 + p.download_size, s.2 + p.full_size)) ps errs := rfl

lemma update_saving_fst (ps : List PackagePayload) :
    ∀ (s : Nat × Nat) (errs : List String),
      (update_saving s ps errs).1 =
        s.1 + (ps.map fun p => p.download_size).sum := by
  induction ps with
  | nil => intro s errs; simp [update_saving]
  | cons p ps ih =>
    intro s errs
    rw [update_saving_cons]
    by_cases h : errs.contains p.pkg = true
    · rw [if_pos h, ih]
      simp only [List.map_cons, List.sum_cons]
      omega
    · rw [if_neg h, ih]
      simp only [List.map_cons, List.sum_cons]
      omega

lemma update_saving_snd (ps : List PackagePayload) :
    ∀ (s : Nat × Nat) (errs : List String),
      (update_saving s ps errs).2 =
        s.2 + ((ps.filter fun p => !errs.contains p.pkg).map
          fun p => p.download_size).sum := by
  induction ps with
  | nil => intro s errs; simp [update_saving]
  | cons p ps ih =>
    intro s errs
    rw [update_saving_cons]
    by_cases h : errs.contains p.pkg = true
    · rw [if_pos h, ih]
      have hmem : p.pkg ∈ errs := by simpa using h
      simp [List.filter_cons, hmem]
    · rw [if_neg h, ih]
      have hmem : p.pkg ∉ errs := by simpa using h
      simp only [List.filter_cons]
      rw [if_pos (by simp [hmem] : (!errs.contains p.pkg) = true)]
      simp only [List.map_cons, List.sum_cons, PackagePayload.full_size]
      omega

lemma firstInvalidFrom_shift (l : List Char) :
    ∀ i : Nat, firstInvalidFrom i l = (firstInvalidFrom 0 l).map fun k => k + i := by
  induction l with
  | nil => intro i; simp [firstInvalidFrom]
  | cons c cs ih =>
    intro i
    by_cases h : allowedIdChar c = true
    · simp only [firstInvalidFrom, if_pos h, ih (i + 1), ih 1]
      cases firstInvalidFrom 0 cs <;> simp <;> omega
    · simp [firstInvalidFrom, if_neg h]

lemma firstInvalid_none_iff (l : List Char) :
    firstInvalidFrom 0 l = none ↔ ∀ c ∈ l, allowedIdChar c = true := by
  induction l with
  | nil => simp [firstInvalidFrom]
  | cons c cs ih =>
    by_cases h : allowedIdChar c = true
    · rw [show firstInvalidFrom 0 (c :: cs) = firstInvalidFrom 1 cs from if_pos h,
        firstInvalidFrom_shift cs 1]
      constructor
      · intro hmap a ha
        rcases List.mem_cons.mp ha with rfl | hacs
        · exact h
        · have hnone : firstInvalidFrom 0 cs = none := by
            cases hfk : firstInvalidFrom 0 cs with
            | none => rfl
            | some k => rw [hfk] at hmap; simp at hmap
          exact ih.mp hnone a hacs
      · intro hall
        have hnone : firstInvalidFrom 0 cs = none :=
          ih.mpr fun a ha => hall a (List.mem_cons_of_mem c ha)
        rw [hnone]; rfl
    · rw [show firstInvalidFrom 0 (c :: cs) = some 0 from if_neg h]
      constructor
      · intro hcon; exact absurd hcon (by simp)
      · intro hall; exact absurd (hall c (List.mem_cons_self c cs)) h

lemma firstInvalid_some (l : List Char) :
    ∀ k : Nat, firstInvalidFrom 0 l = some k →
      ∃ c, l[k]? = some c ∧ allowedIdChar c = false ∧
        ∀ j, j < k → ∀ c', l[j]? = some c' → allowedIdChar c' = true := by
  induction l with
  | nil => intro k hk; simp [firstInvalidFrom] at hk
  | cons c cs ih =>
    intro k hk
    by_cases h : allowedIdChar c = true
    · rw [show firstInvalidFrom 0 (c :: cs) = firstInvalidFrom 1 cs from if_pos h,
        firstInvalidFrom_shift cs 1] at hk
      cases hfk : firstInvalidFrom 0 cs with
      | none => rw [hfk] at hk; simp at hk
      | some k' =>
        rw [hfk] at hk
        simp only [Option.map_some', Option.some.injEq] at hk
        subst hk
        obtain ⟨c0, hc0, hbad, hpre⟩ := ih k' hfk
        refine ⟨c0, by simpa using hc0, hbad, ?_⟩
        intro j hj c' hc'
        cases j with
        | zero =>
          simp only [List.getElem?_cons_zero, Option.some.injEq] at hc'
          exact hc' ▸ h
        | succ j' =>
          exact hpre j' (Nat.lt_of_succ_lt_succ hj) c' (by simpa using hc')
    · rw [show firstInvalidFrom 0 (c :: cs) = some 0 from if_neg h] at hk
      have hk0 : 0 = k := Option.some.inj hk
      subst hk0
      exact ⟨c, by simp, by simpa using h,
        fun j hj => absurd hj (Nat.not_lt_zero j)⟩

lemma try_revive_isSome (st : RepoState) (env : Env)
    (h : (_try_revive st env).1 = Except.ok true) : st.metadata.isSome = true := by
  cases hm : st.metadata with
  | none => rw [_try_revive, hm] at h; simp at h
  | some md => simp

lemma try_revive_ok_true_iff (st : RepoState) (env : Env) :
    (_try_revive st env).1 = Except.ok true ↔ reviveSpecConditions st env := by
  unfold reviveSpecConditions
  cases hm : st.metadata with
  | none => simp [_try_revive, hm]
  | some md =>
    cases hml : optTruthy st.metalink with
    | false => simp [_try_revive, hm, hml]
    | true =>
      cases hf : env.reviveFetch with
      | error e => simp [_try_revive, hm, hml, hf]
      | ok mlOpt =>
        cases mlOpt with
        | none => simp [_try_revive, hm, hml, hf]
        | some ml =>
          have hrev : (_try_revive st env).1 =
              if (ml.hashes.filter fun hv =>
                  decide (hv.1 ∈ _RECOGNIZED_CHKSUMS)).length < 1
              then Except.ok false
              else Except.ok ((ml.hashes.filter fun hv =>
                  decide (hv.1 ∈ _RECOGNIZED_CHKSUMS)).all
                fun hv => decide (env.digest hv.1 = hv.2)) := by
            simp only [_try_revive, hm, hml, hf]
            rw [if_neg (by simp : ¬(true = false))]
            by_cases hl : (ml.hashes.filter fun hv =>
                decide (hv.1 ∈ _RECOGNIZED_CHKSUMS)).length < 1
            · rw [if_pos hl, if_pos hl]
            · rw [if_neg hl, if_neg hl]
          rw [hrev]
          by_cases hlen :
              (ml.hashes.filter fun hv => decide (hv.1 ∈ _RECOGNIZED_CHKSUMS)).length < 1
          · have hnil : ml.hashes.filter
                (fun hv => decide (hv.1 ∈ _RECOGNIZED_CHKSUMS)) = [] :=
              List.length_eq_zero.mp (Nat.lt_one_iff.mp hlen)
            rw [if_pos hlen]
            constructor
            · intro hcon; exact absurd hcon (by simp)
            · rintro ⟨-, -, ml', hml', ⟨hv, hmem, hrec⟩, -⟩
              obtain rfl : ml = ml' := Option.some.inj (Except.ok.inj hml')
              have hvf : hv ∈ ml.hashes.filter
                  (fun hv => decide (hv.1 ∈ _RECOGNIZED_CHKSUMS)) :=
                List.mem_filter.mpr ⟨hmem, decide_eq_true hrec⟩
              rw [hnil] at hvf
              exact absurd hvf (List.not_mem_nil hv)
          · rw [if_neg hlen]
            constructor
            · intro hall
              have hallb : (ml.hashes.filter fun hv =>
                  decide (hv.1 ∈ _RECOGNIZED_CHKSUMS)).all
                    (fun hv => decide (env.digest hv.1 = hv.2)) = true :=
                Except.ok.inj hall
              refine ⟨by simp [hm], rfl, ml, rfl, ?_, ?_⟩
              · have hne : ml.hashes.filter
                    (fun hv => decide (hv.1 ∈ _RECOGNIZED_CHKSUMS)) ≠ [] := by
                  intro hn
                  exact hlen (by simp [hn])
                obtain ⟨hv, hmemf⟩ := List.exists_mem_of_ne_nil _ hne
                obtain ⟨hmem, hrec⟩ := List.mem_filter.mp hmemf
                exact ⟨hv, hmem, of_decide_eq_true hrec⟩
              · intro hv hmem hrec
                have hd := List.all_eq_true.mp hallb hv
                  (List.mem_filter.mpr ⟨hmem, decide_eq_true hrec⟩)
                exact of_decide_eq_true hd
            · rintro ⟨-, -, ml', hml', -, hall⟩
              obtain rfl : ml = ml' := Option.some.inj (Except.ok.inj hml')
              have hb : (ml.hashes.filter fun hv =>
                  decide (hv.1 ∈ _RECOGNIZED_CHKSUMS)).all
                    (fun hv => decide (env.digest hv.1 = hv.2)) = true := by
                apply List.all_eq_true.mpr
                intro hv hmemf
                obtain ⟨hmem, hrec⟩ := List.mem_filter.mp hmemf
                exact decide_eq_true (hall hv hmem (of_decide_eq_true hrec))
              rw [hb]

lemma load_fallthrough (st : RepoState) (env : Env) (md : Metadata)
    (hm : st.metadata = some md) (he : st.expired = true)
    (hs : st.sync_strategy = SyncStrategy.tryCache)
    (hr : (_try_revive st env).1 = Except.ok false) :
    Action.remoteFetch ∈ (load st env).2 := by
  have hload : load st env = loadTail st true [] env := by
    rw [load, hm]
  rw [hload]
  cases htr : _try_revive st env with
  | mk r acts2 =>
    have hr' : r = Except.ok false := by rw [htr] at hr; exact hr
    subst hr'
    unfold loadTail
    rw [htr]
    cases hrf : env.remoteFetch <;> simp [hs, he]

lemma loadTail_fresh (st1 : RepoState) (hc : Bool) (acts : List Action) (env : Env)
    (st' : RepoState) (tr : List Action)
    (h : loadTail st1 hc acts env = (Except.ok (true, st'), tr)) :
    st'.metadata.isSome = true ∧ st'.expired = false := by
  unfold loadTail at h
  split at h
  · exact absurd h (by simp)
  · split at h
    · exact absurd h (by simp)
    · split at h
      next e acts2 heq => exact absurd h (by simp)
      next acts2 heq =>
        have hsome : st1.metadata.isSome = true :=
          try_revive_isSome st1 env (by rw [heq])
        simp only [Prod.mk.injEq, Except.ok.injEq, true_and] at h
        obtain ⟨hst, -⟩ := h
        obtain ⟨m, hmd⟩ := Option.isSome_iff_exists.mp hsome
        constructor <;> simp [← hst, hmd]
      next acts2 heq =>
        split at h
        · exact absurd h (by simp)
        · simp only [Prod.mk.injEq, Except.ok.injEq, true_and] at h
          obtain ⟨hst, -⟩ := h
          constructor <;> simp [← hst]

lemma load_fresh (st0 : RepoState) (env0 : Env) (st1 : RepoState) (tr : List Action)
    (h : load st0 env0 = (Except.ok (true, st1), tr)) :
    st1.metadata.isSome = true ∧ st1.expired = false := by
  unfold load at h
  split at h
  · exact loadTail_fresh _ _ _ _ _ _ h
  · rcases htc : _try_cache st0 env0 with ⟨g, st'⟩
    rw [htc] at h
    exact loadTail_fresh _ _ _ _ _ _ h

lemma load_cached_false (st : RepoState) (env : Env)
    (hm : st.metadata.isSome = true) (he : st.expired = false) :
    load st env = (Except.ok (false, st), []) := by
  obtain ⟨md, hmd⟩ := Option.isSome_iff_exists.mp hm
  rw [load, hmd, loadTail]
  rw [if_pos ⟨rfl, Or.inr (Or.inr he)⟩]

/-! Claim theorems. -/

/-- C1: revive succeeds exactly when a snapshot exists, a metalink is
configured, and the fetched descriptor carries a metalink with at least
one recognized-algorithm hash all of whose recognized hashes equal the
digests recomputed over the cached repomd file; when revive reports
failure on an expired snapshot, `load` goes on to the full remote refetch. -/
theorem revive_requirements :
    ∀ (st : RepoState) (env : Env),
      ((_try_revive st env).1 = Except.ok true ↔ reviveSpecConditions st env) ∧
      (∀ md, st.metadata = some md → st.expired = true →
        st.sync_strategy = SyncStrategy.tryCache →
        (_try_revive st env).1 = Except.ok false →
        Action.remoteFetch ∈ (load st env).2) :=
  fun st env => ⟨try_revive_ok_true_iff st env,
    fun md hm he hs hr => load_fallthrough st env md hm he hs hr⟩

/-- C1 witness: an expired snapshot with a metalink whose advertised
sha256 digest differs from the recomputed one makes `load` take the
refetch path. -/
theorem revive_requirements_witness :
    Action.remoteFetch ∈ (load stRevive envBadDigest).2 :=
  (revive_requirements stRevive envBadDigest).2 ⟨10000, false⟩ rfl rfl rfl rfl

/-- C2: in cache-only mode with no in-memory snapshot and no loadable
local cache, `load` raises the cache-only error after only the local
cache probe: the action trace contains neither the revive fetch nor the
remote fetch. -/
theorem load_cache_only_spec :
    ∀ (st : RepoState) (env : Env),
      st.metadata = none → env.cacheLoad = none →
      st.sync_strategy = SyncStrategy.onlyCache →
      load st env = (Except.error (RepoError.cacheOnly st.id), [Action.localLoad]) ∧
      Action.reviveFetch ∉ (load st env).2 ∧
      Action.remoteFetch ∉ (load st env).2 := by
  intro st env hm hc hs
  have h1 : load st env =
      (Except.error (RepoError.cacheOnly st.id), [Action.localLoad]) := by
    simp [load, hm, _try_cache, hc, loadTail, hs]
  exact ⟨h1, by simp [h1], by simp [h1]⟩

/-- C2 witness: the concrete cache-only repository with an empty
environment. -/
theorem load_cache_only_spec_witness :
    load stCacheOnly envEmpty =
      (Except.error (RepoError.cacheOnly "fedora"), [Action.localLoad]) :=
  (load_cache_only_spec stCacheOnly envEmpty rfl rfl rfl).1

/-- C3: evaluating `download_payloads` on a batch where target A reports
"Already downloaded", B succeeds and C reports a generic error: A is
recorded as skipped, but C's entry never reaches the ledger — the item
assignment of repo.py line 141 goes into the temporary dict returned by
the `irrecoverable` property getter, so both the stored dict and the
visible irrecoverable view stay empty instead of holding C's error. -/
theorem download_payloads_loses_irrecoverable :
    download_payloads none []
        [⟨⟨"A", 10⟩, some "Already downloaded"⟩, ⟨⟨"B", 20⟩, none⟩,
         ⟨⟨"C", 30⟩, some "Cannot download, all mirrors were tried"⟩] =
      ⟨[], [], none, ["A"]⟩ ∧
    DownloadErrors.irrecoverable ⟨[], [], none, ["A"]⟩ = [] := by decide

/-- C4: a call to `load` that reports a fresh fetch leaves a state with a
snapshot and the expired flag cleared; from such a state with
`metadata_expire = -1`, every later `load` returns false no matter how
old the snapshot has become, performing no actions at all. -/
theorem load_never_expires :
    ∀ (st0 : RepoState) (env0 : Env) (st1 : RepoState) (tr : List Action),
      load st0 env0 = (Except.ok (true, st1), tr) →
      st1.metadata.isSome = true ∧ st1.expired = false ∧
      (st1.metadata_expire = -1 →
        ∀ (a : Int) (env' : Env),
          load (setAge st1 a) env' = (Except.ok (false, setAge st1 a), [])) := by
  intro st0 env0 st1 tr h
  obtain ⟨hsome, hexp⟩ := load_fresh st0 env0 st1 tr h
  refine ⟨hsome, hexp, fun _ a env' => ?_⟩
  apply load_cached_false
  · obtain ⟨md, hmd⟩ := Option.isSome_iff_exists.mp hsome
    simp [setAge, hmd]
  · simp [setAge, hexp]

/-- C4 witness: after a fresh fetch of the never-expiring repository, a
later `load` at snapshot age 999999 still returns false. -/
theorem load_never_expires_witness :
    load (setAge ⟨"rawhide", some ⟨0, true⟩, false, SyncStrategy.tryCache, -1, none⟩
        999999) envFetchOk =
      (Except.ok (false,
        setAge ⟨"rawhide", some ⟨0, true⟩, false, SyncStrategy.tryCache, -1, none⟩
          999999), []) :=
  (load_never_expires stFresh0 envFetchOk
      ⟨"rawhide", some ⟨0, true⟩, false, SyncStrategy.tryCache, -1, none⟩
      [Action.localLoad, Action.remoteFetch] rfl).2.2 rfl 999999 envFetchOk

/-- C5: the remote fetch of the refetch path writes only into the
temporary directory — the canonical cache entries are unchanged after it —
and the subsequent `_replace_metadata` installs exactly the fetched
repodata set, never a mix of old and new files. -/
theorem refetch_atomic_swap :
    ∀ (fs : CacheFS) (d : TmpContents),
      (fetch_to_tmpdir d fs).repodata = fs.repodata ∧
      (fetch_to_tmpdir d fs).metalink = fs.metalink ∧
      (fetch_to_tmpdir d fs).mirrorlist = fs.mirrorlist ∧
      (_replace_metadata (fetch_to_tmpdir d fs)).repodata = d.repodata :=
  fun fs d => ⟨rfl, rfl, rfl, rfl⟩

/-- C6: the `irrecoverable` view is exactly the stored per-package entries
when any exist; the single empty-identity entry carrying the fatal message
when none exist and `fatal` holds a truthy message; and empty otherwise. -/
theorem irrecoverable_view_spec :
    ∀ e : DownloadErrors,
      (e._irrecoverable ≠ [] → e.irrecoverable = e._irrecoverable) ∧
      (e._irrecoverable = [] → ∀ s, e.fatal = some s → s ≠ "" →
        e.irrecoverable = [("", [s])]) ∧
      (e._irrecoverable = [] → optTruthy e.fatal = false →
        e.irrecoverable = []) := by
  intro e
  refine ⟨fun h => ?_, fun h s hs hne => ?_, fun h hf => ?_⟩
  · simp [DownloadErrors.irrecoverable, h]
  · simp [DownloadErrors.irrecoverable, h, hs, hne]
  · cases hf2 : e.fatal with
    | none => simp [DownloadErrors.irrecoverable, h, hf2]
    | some s =>
      have hs0 : s = "" := by simpa [optTruthy, hf2] using hf
      simp [DownloadErrors.irrecoverable, h, hf2, hs0]

/-- C6 witness: a ledger with only a fatal message synthesizes the single
empty-identity entry. -/
theorem irrecoverable_view_spec_witness :
    DownloadErrors.irrecoverable ⟨[], [], some "transfer aborted", []⟩ =
      [("", ["transfer aborted"])] :=
  (irrecoverable_view_spec ⟨[], [], some "transfer aborted", []⟩).2.1 rfl
    "transfer aborted" rfl (by decide)

/-- C7: `update_saving` adds every payload's download size to the
downloaded counter, adds it to the full counter only for payloads whose
package is not in the error set, and `full_size` equals the download
size. -/
theorem update_saving_spec :
    ∀ (saving : Nat × Nat) (payloads : List PackagePayload) (errs : List String),
      (update_saving saving payloads errs).1 =
        saving.1 + (payloads.map fun p => p.download_size).sum ∧
      (update_saving saving payloads errs).2 =
        saving.2 + ((payloads.filter fun p => !errs.contains p.pkg).map
          fun p => p.download_size).sum ∧
      ∀ p : PackagePayload, p.full_size = p.download_size :=
  fun s ps errs =>
    ⟨update_saving_fst ps s errs, update_saving_snd ps s errs, fun _ => rfl⟩

/-- C8: `repo_id_invalid` reports `none` exactly when every character is
allowed, any reported index is the first disallowed position, and the two
examples from the specification evaluate as stated. -/
theorem repo_id_invalid_spec :
    (∀ s : String, repo_id_invalid s = none ↔ ∀ c ∈ s.data, allowedIdChar c = true) ∧
    (∀ (s : String) (i : Nat), repo_id_invalid s = some i →
      ∃ c, s.data[i]? = some c ∧ allowedIdChar c = false ∧
        ∀ j, j < i → ∀ c', s.data[j]? = some c' → allowedIdChar c' = true) ∧
    repo_id_invalid "base-1.el9_x" = none ∧
    repo_id_invalid "base repo!" = some 4 :=
  ⟨fun s => firstInvalid_none_iff s.data,
   fun s i h => firstInvalid_some s.data i h,
   by decide, by decide⟩

/-- C8 witness: the invalid id "base repo!" has its first offending
character at index 4, the space. -/
theorem repo_id_invalid_spec_witness :
    ∃ c, ("base repo!" : String).data[4]? = some c ∧ allowedIdChar c = false ∧
      ∀ j, j < 4 → ∀ c', ("base repo!" : String).data[j]? = some c' →
        allowedIdChar c' = true :=
  repo_id_invalid_spec.2.1 "base repo!" 4 (by decide)

/-- C9 counterexample: with username "a b" and no password the handle is
given the raw string "a b", not the URL-escaped "a%20b:" that
`_user_pass_str` would produce, so repository credentials are not
formatted as the claim states. -/
theorem repo_creds_not_escaped :
    (_handle_new_remote_creds (some "a b") none none none).userpwd = some "a b" ∧
    _user_pass_str (some "a b") none = some "a%20b:" ∧
    (_handle_new_remote_creds (some "a b") none none none).userpwd ≠
      _user_pass_str (some "a b") none := by decide

/-- C9 amended: proxy credentials go through `_user_pass_str` and are
URL-escaped with an empty password rendered after the colon; repository
credentials are passed raw — the bare username when the password is falsy,
`username:password` otherwise, and nothing when the username is falsy. -/
theorem handle_credentials_spec :
    (∀ username password pu pp : Option String,
      (_handle_new_remote_creds username password pu pp).proxyuserpwd =
        _user_pass_str pu pp) ∧
    (∀ (u : String) (pw : Option String),
      _user_pass_str (some u) pw =
        some (urllib_quote u ++ ":" ++
          (match pw with
           | none => ""
           | some p => urllib_quote p))) ∧
    (∀ (u : String) (pw pu pp : Option String), u ≠ "" → optTruthy pw = false →
      (_handle_new_remote_creds (some u) pw pu pp).userpwd = some u) ∧
    (∀ (u p : String) (pu pp : Option String), u ≠ "" → p ≠ "" →
      (_handle_new_remote_creds (some u) (some p) pu pp).userpwd =
        some (u ++ ":" ++ p)) ∧
    (∀ (pw pu pp : Option String),
      (_handle_new_remote_creds none pw pu pp).userpwd = none) := by
  refine ⟨fun _ _ _ _ => rfl, fun u pw => rfl, ?_, ?_, fun _ _ _ => rfl⟩
  · intro u pw pu pp hu hpw
    have hut : optTruthy (some u) = true := by simp [optTruthy, hu]
    simp [_handle_new_remote_creds, hut, hpw]
  · intro u p pu pp hu hp
    have hut : optTruthy (some u) = true := by simp [optTruthy, hu]
    have hpt : optTruthy (some p) = true := by simp [optTruthy, hp]
    simp [_handle_new_remote_creds, hut, hpt]

/-- C9 witness: a non-empty username with no password reaches the handle
as the bare username. -/
theorem handle_credentials_spec_witness :
    (_handle_new_remote_creds (some "john") none none none).userpwd =
      some "john" :=
  handle_credentials_spec.2.2.1 "john" none none none (by decide) (by decide)

/-- C10: after `md_expire_cache`, a repository holding a snapshot with
`metadata_expire ≠ -1` reports cached metadata with a seconds-to-expiry
clamped to `min 0 (metadata_expire - age)`, which is never positive even
when the time-based expiry has not elapsed. -/
theorem md_expire_cache_clamps :
    ∀ (st : RepoState) (env : Env) (md : Metadata),
      st.metadata = some md → st.metadata_expire ≠ -1 →
      (metadata_expire_in (md_expire_cache st) env).1 =
        (true, some (min 0 (st.metadata_expire - md.age))) ∧
      min 0 (st.metadata_expire - md.age) ≤ 0 := by
  intro st env md hm hne
  constructor
  · simp [metadata_expire_in, md_expire_cache, hm, hne]
  · exact min_le_left 0 _

/-- C10 witness: a snapshot aged 50 with expiry 3600 — not yet expired by
time — still reports a non-positive expiry after `md_expire_cache`. -/
theorem md_expire_cache_clamps_witness :
    (metadata_expire_in
        (md_expire_cache
          ⟨"base", some ⟨50, false⟩, false, SyncStrategy.tryCache, 3600, none⟩)
        envEmpty).1 =
      (true, some (min 0 ((3600 : Int) - 50))) ∧
    min 0 ((3600 : Int) - 50) ≤ 0 :=
  md_expire_cache_clamps _ envEmpty ⟨50, false⟩ rfl (by decide)

end Dnf
